import Mathlib

/-!
# AccessFlow: the request-rate admission middleware

A shallow embedding of `src/security/middleware/security/rateLimiter.middleware.security.js`
(class `RateLimiterMiddleware`: its constructor and its `handle` method) together with the
single-shot timers that `handle` registers through `setTimeout`.

Modelling conventions.

* Line 1 of the source is `import { Map } from 'node:fs/promises'`. That module exports no
  `Map`: loaded as an ES module the file does not link, and in a build that resolves the
  binding at run time it is `undefined`, so that `new Map()` on line 32 throws. In both cases
  the constructor never returns an instance, and it is modelled so.
* `handle` and the scheduled callbacks never name `Map`; they only call `get` and `set` on
  `this.ipCountMap` and `has` and `add` on `this.ipBlockList`. The first field is represented
  by its lookup function, the second by its membership function, and the theorems about
  `handle` and the callbacks hold for every state of that shape, not only for states that a
  constructor call has produced.
* Counters are natural numbers: the only values ever stored are `count + 1` and `count`, where
  `count` is `get(ip) || 0`, so they are non-negative integers. The model covers executions
  in which they stay below `2 ^ 53`, the range in which `count + 1` is computed exactly.
* A number of the language is `NaN`, an infinity, or a finite value; finite values are embedded
  in the rationals, on which the comparisons used by the source are exact.
* `setTimeout` appends a pending callback to the timer queue of the runtime; firing a pending
  callback removes it from the queue and runs its body.
-/

namespace AccessFlow

/-! ## Values of the language -/

/-- A number of the language: `NaN`, the two infinities, or a finite value. -/
inductive JSNum where
  | nan
  | negInf
  | posInf
  | fin (q : ℚ)
  deriving DecidableEq

namespace JSNum

/-- The comparison `x <= 0`. Every comparison with `NaN` is false. -/
def leZero : JSNum → Bool
  | nan => false
  | negInf => true
  | posInf => false
  | fin q => decide (q ≤ 0)

/-- The comparison `x > 0`. -/
def gtZero : JSNum → Bool
  | nan => false
  | negInf => false
  | posInf => true
  | fin q => decide (0 < q)

/-- The comparison `count >= m` for a counter value `count`. -/
def natGe (count : Nat) : JSNum → Bool
  | nan => false
  | negInf => true
  | posInf => false
  | fin q => decide (q ≤ (count : ℚ))

/-- The comparison `count < m` for a counter value `count`. -/
def natLt (count : Nat) : JSNum → Bool
  | nan => false
  | negInf => false
  | posInf => true
  | fin q => decide ((count : ℚ) < q)

/-- The comparison `count <= m` for a counter value `count`. -/
def natLe (count : Nat) : JSNum → Bool
  | nan => false
  | negInf => false
  | posInf => true
  | fin q => decide ((count : ℚ) ≤ q)

/-- Truthiness of a number: `NaN` and zero are falsy. -/
def truthy : JSNum → Bool
  | nan => false
  | negInf => true
  | posInf => true
  | fin q => decide (q ≠ 0)

end JSNum

/-- The value of `req.ip`: the remote address as a string, or `undefined`. -/
inductive Ip where
  | undefined
  | addr (s : String)
  deriving DecidableEq

/-- A request object as passed to `handle`: either a nullish value, on which reading `.ip`
throws, or an object whose `ip` property has the given value. -/
inductive Req where
  | nullish
  | obj (ip : Ip)
  deriving DecidableEq

/-- The values that can be passed as `options` or stored in one of its three properties that
the constructor reads. An object is given by the values of `maxRequests`, `interval` and
`whitelist` (an absent property reads as `undefined`); an array by its elements. -/
inductive JSVal where
  | undefined
  | null
  | boolean (b : Bool)
  | number (x : JSNum)
  | bigint (z : Int)
  | string (s : String)
  | symbol
  | func
  | array (xs : List Ip)
  | object (maxRequests interval whitelist : JSVal)
  deriving DecidableEq

namespace JSVal

/-- The result of `typeof v`. -/
def typeof : JSVal → String
  | undefined => "undefined"
  | null => "object"
  | boolean _ => "boolean"
  | number _ => "number"
  | bigint _ => "bigint"
  | string _ => "string"
  | symbol => "symbol"
  | func => "function"
  | array _ => "object"
  | object _ _ _ => "object"

/-- Truthiness, as tested by `!v` and `v && ...`. -/
def truthy : JSVal → Bool
  | undefined => false
  | null => false
  | boolean b => b
  | number x => x.truthy
  | bigint z => decide (z ≠ 0)
  | string s => decide (s ≠ "")
  | symbol => true
  | func => true
  | array _ => true
  | object _ _ _ => true

/-- The result of `Array.isArray(v)`. -/
def isArray : JSVal → Bool
  | array _ => true
  | _ => false

/-- The property read `v.maxRequests` on a non-nullish value. -/
def maxRequests : JSVal → JSVal
  | object m _ _ => m
  | _ => undefined

/-- The property read `v.interval` on a non-nullish value. -/
def interval : JSVal → JSVal
  | object _ i _ => i
  | _ => undefined

/-- The property read `v.whitelist` on a non-nullish value. -/
def whitelist : JSVal → JSVal
  | object _ _ w => w
  | _ => undefined

/-- The comparison `v <= 0`; the source evaluates it only when `typeof v` is `"number"`. -/
def leZero : JSVal → Bool
  | number x => x.leZero
  | _ => false

/-- The number held by a value whose `typeof` is `"number"`. -/
def toNum : JSVal → JSNum
  | number x => x
  | _ => JSNum.nan

/-- The elements of a value for which `Array.isArray` holds; a falsy value gives `none`. -/
def toList? : JSVal → Option (List Ip)
  | array xs => some xs
  | _ => none

end JSVal

/-! ## The limiter and the runtime -/

/-- The options object kept in `this.options`, of the form that passes the guards of the
constructor: `maxRequests` and `interval` are numbers and `whitelist` is either falsy (`none`)
or an array (`some xs`). -/
structure Options where
  maxRequests : JSNum
  interval : JSNum
  whitelist : Option (List Ip)

/-- An instance of the class: its three fields. -/
structure RateLimiterMiddleware where
  options : Options
  ipCountMap : Ip → Option Nat
  ipBlockList : Ip → Bool

/-- A pending callback registered by `setTimeout(() => this.ipCountMap.set(ip, count), interval)`:
the two captured variables and the delay. -/
structure Timer where
  ip : Ip
  count : Nat
  delay : JSNum
  deriving DecidableEq

/-- The limiter together with the callbacks that are scheduled and have not fired yet, in the
order in which they were scheduled. -/
structure Runtime where
  limiter : RateLimiterMiddleware
  pending : List Timer

/-- What `handle` does with `res` and `next`: every path performs exactly one of these. -/
inductive Response where
  | next
  | nextErr
  | send (status : Nat) (body : String)
  deriving DecidableEq

/-- The method `Map.prototype.set`. -/
def mapSet (m : Ip → Option Nat) (ip : Ip) (v : Nat) : Ip → Option Nat :=
  fun k => if k = ip then some v else m k

/-- The method `Set.prototype.add`. -/
def setAdd (s : Ip → Bool) (ip : Ip) : Ip → Bool :=
  fun k => if k = ip then true else s k

/-- The test `this.options.whitelist && this.options.whitelist.includes(ip)`. -/
def Options.whitelisted (o : Options) (ip : Ip) : Bool :=
  match o.whitelist with
  | none => false
  | some xs => xs.contains ip

/-- What a failed construction raises: an `Error` thrown by one of the guards, with its
message, or the `TypeError` that `new` raises on a value that is not a constructor. -/
inductive Thrown where
  | error (message : String)
  | typeError
  deriving DecidableEq

/-- The binding `Map` of line 1, `import { Map } from 'node:fs/promises'`, as line 32 finds
it: the empty collection that `new Map()` would return, or `none` when the binding holds no
constructor. The module `node:fs/promises` exports no `Map`, so it holds none. -/
def importedMap : Option (Ip → Option Nat) := none

/-- The constructor: the four guards of lines 15 to 29 throw their messages; past them,
line 32 evaluates `new Map()` on the binding of line 1, and lines 31 to 33 fill the three
fields only when that returns. -/
def RateLimiterMiddleware.new (options : JSVal) : Except Thrown RateLimiterMiddleware :=
  if !options.truthy || options.typeof != "object" then
    .error (.error "Options must be an object")
  else if options.maxRequests.typeof != "number" || options.maxRequests.leZero then
    .error (.error "maxRequests must be a positive number")
  else if options.interval.typeof != "number" || options.interval.leZero then
    .error (.error "interval must be a positive number")
  else if options.whitelist.truthy && !options.whitelist.isArray then
    .error (.error "whitelist must be an array of strings")
  else
    match importedMap with
    | none => .error .typeError
    | some emptyMap =>
      .ok { options := { maxRequests := options.maxRequests.toNum
                         interval := options.interval.toNum
                         whitelist := options.whitelist.toList? }
            ipCountMap := emptyMap
            ipBlockList := fun _ => false }

/-- The method `handle(req, res, next)`: the runtime after the call and what was done with
`res` and `next`. -/
def RateLimiterMiddleware.handle (w : Runtime) (req : Req) : Runtime × Response :=
  match req with
  | .nullish => (w, .nextErr)
  | .obj ip =>
    if w.limiter.ipBlockList ip then
      (w, .send 403 "IP blocked")
    else if w.limiter.options.whitelisted ip then
      (w, .next)
    else
      let count := (w.limiter.ipCountMap ip).getD 0
      if JSNum.natGe count w.limiter.options.maxRequests then
        ({ w with limiter := { w.limiter with ipBlockList := setAdd w.limiter.ipBlockList ip } },
          .send 429 "Too many requests")
      else
        ({ limiter := { w.limiter with ipCountMap := mapSet w.limiter.ipCountMap ip (count + 1) }
           pending := w.pending ++ [{ ip := ip, count := count, delay := w.limiter.options.interval }] },
          .next)

/-- The body of a scheduled callback: `this.ipCountMap.set(ip, count)`. -/
def Timer.run (t : Timer) (l : RateLimiterMiddleware) : RateLimiterMiddleware :=
  { l with ipCountMap := mapSet l.ipCountMap t.ip t.count }

/-- The pending callback at position `i` fires: it leaves the queue and its body runs. When
there is no such callback nothing happens. -/
def Runtime.fire (w : Runtime) (i : Nat) : Runtime :=
  match w.pending[i]? with
  | none => w
  | some t => { limiter := t.run w.limiter, pending := w.pending.eraseIdx i }

/-- An event of an execution: a call of `handle`, or the firing of a pending callback. -/
inductive Event where
  | handle (req : Req)
  | fire (i : Nat)
  deriving DecidableEq

/-- One event applied to the runtime. -/
def Runtime.step (w : Runtime) : Event → Runtime
  | .handle req => (RateLimiterMiddleware.handle w req).1
  | .fire i => w.fire i

/-- A finite sequence of events applied in order. -/
def Runtime.exec (w : Runtime) (evs : List Event) : Runtime :=
  evs.foldl Runtime.step w

/-- A runtime holding the given limiter in which no callback is pending. -/
def Runtime.start (l : RateLimiterMiddleware) : Runtime :=
  { limiter := l, pending := [] }

/-! ## The construction contract in the words of the specification -/

/-- The value is an object: an array or a plain object, not `null` and not a primitive. -/
def JSVal.isObject : JSVal → Bool
  | .array _ => true
  | .object _ _ _ => true
  | _ => false

/-- The value is a number greater than 0. -/
def JSVal.isPositiveNumber : JSVal → Bool
  | .number x => x.gtZero
  | _ => false

/-- The specification of the constructor, in its own words: construction fails when `options`
is not an object, or `maxRequests` is not a number greater than 0, or `interval` is not a
number greater than 0, or `whitelist` is present (not `undefined`) and is not an array. -/
def specRejects (options : JSVal) : Bool :=
  !options.isObject || !options.maxRequests.isPositiveNumber ||
    !options.interval.isPositiveNumber ||
    (decide (options.whitelist ≠ .undefined) && !options.whitelist.isArray)

/-! ## Concrete configurations and identities used in the examples -/

/-- The identity `"A"`. -/
def ipA : Ip := .addr "A"

/-- The identity `"B"`. -/
def ipB : Ip := .addr "B"

/-- The options `{ maxRequests: 3, interval: 1000 }`. -/
def options3 : JSVal :=
  .object (.number (.fin ((3 : ℕ) : ℚ))) (.number (.fin 1000)) .undefined

/-- A limiter with `maxRequests = 3`, `interval = 1000`, no whitelist, and both collections
empty. -/
def limiter3 : RateLimiterMiddleware :=
  { options := { maxRequests := .fin ((3 : ℕ) : ℚ), interval := .fin 1000, whitelist := none }
    ipCountMap := fun _ => none
    ipBlockList := fun _ => false }

/-- A limiter with `maxRequests = 1`, `interval = 50`, no whitelist, and both collections
empty. -/
def limiter1 : RateLimiterMiddleware :=
  { options := { maxRequests := .fin ((1 : ℕ) : ℚ), interval := .fin 50, whitelist := none }
    ipCountMap := fun _ => none
    ipBlockList := fun _ => false }

/-- A limiter with `maxRequests = 1`, `interval = 50`, the whitelist `["B"]`, and both
collections empty. -/
def limiterExempt : RateLimiterMiddleware :=
  { options := { maxRequests := .fin ((1 : ℕ) : ℚ), interval := .fin 50,
                 whitelist := some [ipB] }
    ipCountMap := fun _ => none
    ipBlockList := fun _ => false }


/-! ## Basic facts about one step -/

theorem handle_options (w : Runtime) (req : Req) :
    (RateLimiterMiddleware.handle w req).1.limiter.options = w.limiter.options := by
  unfold RateLimiterMiddleware.handle
  cases req with
  | nullish => rfl
  | obj ip =>
    dsimp only
    split_ifs <;> rfl

theorem fire_options (w : Runtime) (i : Nat) :
    (w.fire i).limiter.options = w.limiter.options := by
  unfold Runtime.fire
  cases w.pending[i]? <;> rfl

theorem step_options (w : Runtime) (e : Event) :
    (w.step e).limiter.options = w.limiter.options := by
  cases e with
  | handle req => exact handle_options w req
  | fire i => exact fire_options w i

theorem exec_options (evs : List Event) (w : Runtime) :
    (w.exec evs).limiter.options = w.limiter.options := by
  induction evs generalizing w with
  | nil => rfl
  | cons e es ih =>
    show ((w.step e).exec es).limiter.options = _
    rw [ih, step_options]

theorem exec_append (w : Runtime) (xs ys : List Event) :
    w.exec (xs ++ ys) = (w.exec xs).exec ys := by
  simp [Runtime.exec, List.foldl_append]

theorem handle_blocked (w : Runtime) (ip : Ip) (hb : w.limiter.ipBlockList ip = true) :
    RateLimiterMiddleware.handle w (.obj ip) = (w, .send 403 "IP blocked") := by
  simp [RateLimiterMiddleware.handle, hb]

theorem handle_keeps_block (w : Runtime) (req : Req) (ip : Ip)
    (hb : w.limiter.ipBlockList ip = true) :
    (RateLimiterMiddleware.handle w req).1.limiter.ipBlockList ip = true := by
  unfold RateLimiterMiddleware.handle
  cases req with
  | nullish => exact hb
  | obj a =>
    dsimp only
    split_ifs
    · exact hb
    · exact hb
    · simp [setAdd, hb]
    · exact hb

theorem fire_blockList (w : Runtime) (i : Nat) :
    (w.fire i).limiter.ipBlockList = w.limiter.ipBlockList := by
  unfold Runtime.fire
  cases w.pending[i]? <;> rfl

theorem step_keeps_block (w : Runtime) (e : Event) (ip : Ip)
    (hb : w.limiter.ipBlockList ip = true) :
    (w.step e).limiter.ipBlockList ip = true := by
  cases e with
  | handle req => exact handle_keeps_block w req ip hb
  | fire i =>
    show (w.fire i).limiter.ipBlockList ip = true
    rw [fire_blockList]; exact hb

theorem exec_keeps_block (evs : List Event) (w : Runtime) (ip : Ip)
    (hb : w.limiter.ipBlockList ip = true) :
    (w.exec evs).limiter.ipBlockList ip = true := by
  induction evs generalizing w with
  | nil => exact hb
  | cons e es ih => exact ih (w.step e) (step_keeps_block w e ip hb)

/-! ## Blocking is permanent -/

/-- Claim C2. Once an identity is in `ipBlockList` it stays there through every finite sequence
of `handle` calls and callback firings, and every later `handle` call for it sends status 403
with body `IP blocked`, does not call `next`, and leaves the whole runtime (count map, block
list and timer queue) as it was. -/
theorem blocked_is_permanent (w : Runtime) (ip : Ip) (evs : List Event)
    (hb : w.limiter.ipBlockList ip = true) :
    (w.exec evs).limiter.ipBlockList ip = true ∧
      RateLimiterMiddleware.handle (w.exec evs) (.obj ip)
        = (w.exec evs, .send 403 "IP blocked") :=
  ⟨exec_keeps_block evs w ip hb, handle_blocked _ ip (exec_keeps_block evs w ip hb)⟩

/-! ## Whitelisted identities -/

theorem handle_whitelisted (w : Runtime) (ip : Ip)
    (hb : w.limiter.ipBlockList ip = false) (hw : w.limiter.options.whitelisted ip = true) :
    RateLimiterMiddleware.handle w (.obj ip) = (w, .next) := by
  simp [RateLimiterMiddleware.handle, hb, hw]

theorem handle_keeps_unblocked (w : Runtime) (req : Req) (ip : Ip)
    (hw : w.limiter.options.whitelisted ip = true)
    (hb : w.limiter.ipBlockList ip = false) :
    (RateLimiterMiddleware.handle w req).1.limiter.ipBlockList ip = false := by
  unfold RateLimiterMiddleware.handle
  cases req with
  | nullish => exact hb
  | obj a =>
    dsimp only
    split_ifs with h1 h2 h3
    · exact hb
    · exact hb
    · have hne : ip ≠ a := by
        intro h
        rw [h] at hw
        rw [hw] at h2
        exact h2 rfl
      simp [setAdd, hne, hb]
    · exact hb

theorem step_keeps_unblocked (w : Runtime) (e : Event) (ip : Ip)
    (hw : w.limiter.options.whitelisted ip = true)
    (hb : w.limiter.ipBlockList ip = false) :
    (w.step e).limiter.ipBlockList ip = false := by
  cases e with
  | handle req => exact handle_keeps_unblocked w req ip hw hb
  | fire i =>
    show (w.fire i).limiter.ipBlockList ip = false
    rw [fire_blockList]; exact hb

theorem exec_keeps_unblocked (evs : List Event) (w : Runtime) (ip : Ip)
    (hw : w.limiter.options.whitelisted ip = true)
    (hb : w.limiter.ipBlockList ip = false) :
    (w.exec evs).limiter.ipBlockList ip = false := by
  induction evs generalizing w with
  | nil => exact hb
  | cons e es ih =>
    refine ih (w.step e) ?_ (step_keeps_unblocked w e ip hw hb)
    rw [step_options]; exact hw

/-- Claim C3. Let `ip` be contained in the array `options.whitelist`, and consider any runtime
in which `ip` is not in `ipBlockList` (such as one whose block list is empty, as line 33 is
written to set it up). After any sequence of `handle` calls and
callback firings, `ip` is still not in `ipBlockList`, and `handle` for `ip` calls `next()`
with no argument, sends nothing, and leaves the count map, the block list and the timer queue
unchanged (so no callback is scheduled). -/
theorem whitelisted_always_passes (w : Runtime) (xs : List Ip) (ip : Ip) (evs : List Event)
    (hwl : w.limiter.options.whitelist = some xs) (hmem : ip ∈ xs)
    (hb0 : w.limiter.ipBlockList ip = false) :
    (w.exec evs).limiter.ipBlockList ip = false ∧
      RateLimiterMiddleware.handle (w.exec evs) (.obj ip) = (w.exec evs, .next) := by
  have hw0 : w.limiter.options.whitelisted ip = true := by
    simp [Options.whitelisted, hwl, hmem]
  have hb := exec_keeps_unblocked evs w ip hw0 hb0
  refine ⟨hb, handle_whitelisted _ ip hb ?_⟩
  rw [exec_options]; exact hw0

/-! ## The limit: admit, then rate-limit and block, then refuse -/

theorem natGe_fin_nat (c n : Nat) : JSNum.natGe c (.fin (n : ℚ)) = decide (n ≤ c) := by
  simp [JSNum.natGe]

theorem handle_other_blockList (w : Runtime) (a ip : Ip) (h : ip ≠ a) :
    (RateLimiterMiddleware.handle w (.obj a)).1.limiter.ipBlockList ip
      = w.limiter.ipBlockList ip := by
  unfold RateLimiterMiddleware.handle
  dsimp only
  split_ifs <;> simp [setAdd, h]

theorem handle_other_count (w : Runtime) (a ip : Ip) (h : ip ≠ a) :
    (RateLimiterMiddleware.handle w (.obj a)).1.limiter.ipCountMap ip
      = w.limiter.ipCountMap ip := by
  unfold RateLimiterMiddleware.handle
  dsimp only
  split_ifs <;> simp [mapSet, h]

theorem handle_tally (n : Nat) (ip : Ip) (w : Runtime) (req : Req) (k : Nat)
    (hmax : w.limiter.options.maxRequests = .fin (n : ℚ))
    (hwl : w.limiter.options.whitelisted ip = false)
    (hb : w.limiter.ipBlockList ip = decide (n < k))
    (hc : (w.limiter.ipCountMap ip).getD 0 = min k n) :
    (RateLimiterMiddleware.handle w req).1.limiter.ipBlockList ip
        = decide (n < k + (if req = .obj ip then 1 else 0)) ∧
      ((RateLimiterMiddleware.handle w req).1.limiter.ipCountMap ip).getD 0
        = min (k + (if req = .obj ip then 1 else 0)) n := by
  cases req with
  | nullish => simpa [RateLimiterMiddleware.handle] using ⟨hb, hc⟩
  | obj a =>
    by_cases ha : a = ip
    · subst ha
      by_cases hk : n < k
      · have hb1 : w.limiter.ipBlockList a = true := by simpa [hk] using hb
        rw [handle_blocked w a hb1]
        have h1 : n < k + 1 := by omega
        simp [hb1, h1, hc]
        omega
      · have hb1 : w.limiter.ipBlockList a = false := by simpa [hk] using hb
        have hc1 : (w.limiter.ipCountMap a).getD 0 = k := by rw [hc]; omega
        by_cases hkn : n ≤ k
        · have hkn1 : k = n := by omega
          subst hkn1
          simp [RateLimiterMiddleware.handle, hb1, hwl, hmax, natGe_fin_nat, hc1, setAdd]
        · have h2 : ¬ n < k + 1 := by omega
          simp [RateLimiterMiddleware.handle, hb1, hwl, hmax, natGe_fin_nat, hc1, hkn, mapSet,
            h2]
          omega
    · have hne : ip ≠ a := fun h => ha h.symm
      have hreq : (Req.obj a = Req.obj ip) = False := by simp [ha]
      rw [handle_other_blockList w a ip hne, handle_other_count w a ip hne]
      simp [hreq, hb, hc]

theorem handle_calls_tally (n : Nat) (ip : Ip) (reqs : List Req) (w : Runtime) (k : Nat)
    (hmax : w.limiter.options.maxRequests = .fin (n : ℚ))
    (hwl : w.limiter.options.whitelisted ip = false)
    (hb : w.limiter.ipBlockList ip = decide (n < k))
    (hc : (w.limiter.ipCountMap ip).getD 0 = min k n) :
    (w.exec (reqs.map Event.handle)).limiter.ipBlockList ip
        = decide (n < k + reqs.count (.obj ip)) ∧
      ((w.exec (reqs.map Event.handle)).limiter.ipCountMap ip).getD 0
        = min (k + reqs.count (.obj ip)) n := by
  induction reqs generalizing w k with
  | nil => simpa [Runtime.exec] using ⟨hb, hc⟩
  | cons r rs ih =>
    obtain ⟨hb1, hc1⟩ := handle_tally n ip w r k hmax hwl hb hc
    have hmax1 : (RateLimiterMiddleware.handle w r).1.limiter.options.maxRequests
        = .fin (n : ℚ) := by rw [handle_options]; exact hmax
    have hwl1 : (RateLimiterMiddleware.handle w r).1.limiter.options.whitelisted ip = false := by
      rw [handle_options]; exact hwl
    have := ih (RateLimiterMiddleware.handle w r).1 _ hmax1 hwl1 hb1 hc1
    have hcount : (r :: rs).count (.obj ip)
        = (if r = .obj ip then 1 else 0) + rs.count (.obj ip) := by
      rw [List.count_cons]
      by_cases hr : r = .obj ip
      · simp [hr]; omega
      · have : (r == Req.obj ip) = false := by simpa using hr
        simp [hr]
    rw [hcount, ← Nat.add_assoc]
    exact this

/-- Claim C1. Let `maxRequests` be the integer `n ≥ 1`, let `ip` be an identity that is not
whitelisted, and start from any runtime in which `ip` is not in `ipBlockList` and has no entry
in `ipCountMap` (such as one whose two collections are empty, as lines 32 and 33 are written
to set them up). After any sequence `reqs` of `handle` calls (for any
identities, no callback fired) of which `k` were for `ip`, the next call for `ip` is call
number `k + 1`: when `k < n` it calls `next()` and sends nothing; when `k = n` it sends status
429 with body `Too many requests`, does not call `next`, and `ip` is in `ipBlockList`
afterwards; when `k > n` it sends status 403 with body `IP blocked` and does not call
`next`. -/
theorem limit_then_block (w : Runtime) (n : Nat) (ip : Ip) (reqs : List Req)
    (hmax0 : w.limiter.options.maxRequests = .fin (n : ℚ)) (_hn : 1 ≤ n)
    (hwl : w.limiter.options.whitelisted ip = false)
    (hblock : w.limiter.ipBlockList ip = false)
    (hcount : w.limiter.ipCountMap ip = none) :
    (reqs.count (.obj ip) < n →
        (RateLimiterMiddleware.handle (w.exec (reqs.map Event.handle)) (.obj ip)).2 = .next) ∧
      (reqs.count (.obj ip) = n →
        (RateLimiterMiddleware.handle (w.exec (reqs.map Event.handle)) (.obj ip)).2
          = .send 429 "Too many requests" ∧
        (RateLimiterMiddleware.handle (w.exec (reqs.map Event.handle))
          (.obj ip)).1.limiter.ipBlockList ip = true) ∧
      (n < reqs.count (.obj ip) →
        (RateLimiterMiddleware.handle (w.exec (reqs.map Event.handle)) (.obj ip)).2
          = .send 403 "IP blocked") := by
  have hb0 : w.limiter.ipBlockList ip = decide (n < 0) := by
    rw [hblock]; simp
  have hc0 : (w.limiter.ipCountMap ip).getD 0 = min 0 n := by
    rw [hcount]; simp
  obtain ⟨hb, hc⟩ := handle_calls_tally n ip reqs w 0 hmax0 hwl hb0 hc0
  rw [Nat.zero_add] at hb hc
  have hmaxw := (exec_options (reqs.map Event.handle) w).symm ▸ hmax0
  have hwlw : (w.exec (reqs.map Event.handle)).limiter.options.whitelisted ip = false := by
    rw [exec_options]; exact hwl
  refine ⟨fun hk => ?_, fun hk => ?_, fun hk => ?_⟩
  · have hb1 : (w.exec (reqs.map Event.handle)).limiter.ipBlockList ip = false := by
      rw [hb]; simp; omega
    have hc1 : ((w.exec (reqs.map Event.handle)).limiter.ipCountMap ip).getD 0
        = reqs.count (.obj ip) := by rw [hc]; omega
    have hlt : ¬ n ≤ List.count (Req.obj ip) reqs := by omega
    simp [RateLimiterMiddleware.handle, hb1, hwlw, hmaxw, natGe_fin_nat, hc1, hlt]
  · have hb1 : (w.exec (reqs.map Event.handle)).limiter.ipBlockList ip = false := by
      rw [hb]; simp; omega
    have hc1 : ((w.exec (reqs.map Event.handle)).limiter.ipCountMap ip).getD 0 = n := by
      rw [hc]; omega
    simp [RateLimiterMiddleware.handle, hb1, hwlw, hmaxw, natGe_fin_nat, hc1, setAdd]
  · have hb1 : (w.exec (reqs.map Event.handle)).limiter.ipBlockList ip = true := by
      rw [hb]; simpa using hk
    rw [handle_blocked _ ip hb1]

/-! ## Bounds on the stored counts -/

theorem handle_bound (n b : Nat) (hnb : n ≤ b) (w : Runtime) (req : Req)
    (hmax : w.limiter.options.maxRequests = .fin (n : ℚ))
    (hm : ∀ ip c, w.limiter.ipCountMap ip = some c → c ≤ b)
    (hp : ∀ t ∈ w.pending, t.count ≤ b) :
    (∀ ip c, (RateLimiterMiddleware.handle w req).1.limiter.ipCountMap ip = some c → c ≤ b) ∧
      (∀ t ∈ (RateLimiterMiddleware.handle w req).1.pending, t.count ≤ b) := by
  unfold RateLimiterMiddleware.handle
  cases req with
  | nullish => exact ⟨hm, hp⟩
  | obj a =>
    dsimp only
    split_ifs with h1 h2 h3
    · exact ⟨hm, hp⟩
    · exact ⟨hm, hp⟩
    · exact ⟨hm, hp⟩
    · rw [hmax, natGe_fin_nat] at h3
      have hlt : (w.limiter.ipCountMap a).getD 0 < n := by simpa using h3
      constructor
      · intro ip c hc
        dsimp only [mapSet] at hc
        split_ifs at hc with hip
        · cases hc; omega
        · exact hm ip c hc
      · intro t ht
        dsimp only at ht
        rcases List.mem_append.1 ht with h | h
        · exact hp t h
        · rw [List.mem_singleton] at h
          subst h
          exact Nat.le_trans (Nat.le_of_lt hlt) hnb

theorem fire_bound (b : Nat) (w : Runtime) (i : Nat)
    (hm : ∀ ip c, w.limiter.ipCountMap ip = some c → c ≤ b)
    (hp : ∀ t ∈ w.pending, t.count ≤ b) :
    (∀ ip c, (w.fire i).limiter.ipCountMap ip = some c → c ≤ b) ∧
      (∀ t ∈ (w.fire i).pending, t.count ≤ b) := by
  unfold Runtime.fire
  cases hi : w.pending[i]? with
  | none => exact ⟨hm, hp⟩
  | some t =>
    dsimp only
    have ht : t ∈ w.pending := List.getElem?_mem hi
    constructor
    · intro ip c hc
      dsimp only [Timer.run, mapSet] at hc
      split_ifs at hc with hip
      · cases hc; exact hp t ht
      · exact hm ip c hc
    · intro u hu
      exact hp u (List.mem_of_mem_eraseIdx hu)

theorem exec_bound (n b : Nat) (hnb : n ≤ b) (evs : List Event) (w : Runtime)
    (hmax : w.limiter.options.maxRequests = .fin (n : ℚ))
    (hm : ∀ ip c, w.limiter.ipCountMap ip = some c → c ≤ b)
    (hp : ∀ t ∈ w.pending, t.count ≤ b) :
    (∀ ip c, (w.exec evs).limiter.ipCountMap ip = some c → c ≤ b) ∧
      (∀ t ∈ (w.exec evs).pending, t.count ≤ b) := by
  induction evs generalizing w with
  | nil => exact ⟨hm, hp⟩
  | cons e es ih =>
    have hmax1 : (w.step e).limiter.options.maxRequests = .fin (n : ℚ) := by
      rw [step_options]; exact hmax
    cases e with
    | handle req =>
      obtain ⟨h1, h2⟩ := handle_bound n b hnb w req hmax hm hp
      exact ih _ hmax1 h1 h2
    | fire i =>
      obtain ⟨h1, h2⟩ := fire_bound b w i hm hp
      exact ih _ hmax1 h1 h2

/-- Claim C6. Let `maxRequests` be the integer `n ≥ 1`, and start from any runtime in which
every stored count and every count captured by a pending callback is at most `n + 1` (such as
one with an empty count map and no pending callback, as line 32 is written to set it up). After any sequence of `handle` calls and callback firings, every
count stored in `ipCountMap` is a non-negative integer and is at most `maxRequests + 1`. -/
theorem count_within_bounds (w : Runtime) (n : Nat) (evs : List Event) (ip : Ip) (c : Nat)
    (hmax : w.limiter.options.maxRequests = .fin (n : ℚ)) (_hn : 1 ≤ n)
    (hm : ∀ a b, w.limiter.ipCountMap a = some b → b ≤ n + 1)
    (hp : ∀ t ∈ w.pending, t.count ≤ n + 1)
    (hc : (w.exec evs).limiter.ipCountMap ip = some c) :
    0 ≤ c ∧ c ≤ n + 1 :=
  ⟨Nat.zero_le c, (exec_bound n (n + 1) (Nat.le_succ n) evs w hmax hm hp).1 ip c hc⟩

/-! ## The decay callbacks -/

theorem natGe_of_natLt (c : Nat) (m : JSNum) (h : JSNum.natLt c m = true) :
    JSNum.natGe c m = false := by
  cases m with
  | nan => rfl
  | negInf => simp [JSNum.natLt] at h
  | posInf => rfl
  | fin q =>
    simp only [JSNum.natLt, decide_eq_true_eq] at h
    simp only [JSNum.natGe, decide_eq_false_iff_not, not_le]
    exact h

theorem handle_admitted (w : Runtime) (ip : Ip)
    (hb : w.limiter.ipBlockList ip = false)
    (hwl : w.limiter.options.whitelisted ip = false)
    (hge : JSNum.natGe ((w.limiter.ipCountMap ip).getD 0) w.limiter.options.maxRequests
      = false) :
    RateLimiterMiddleware.handle w (.obj ip)
      = ({ limiter := { w.limiter with
              ipCountMap := mapSet w.limiter.ipCountMap ip
                ((w.limiter.ipCountMap ip).getD 0 + 1) }
           pending := w.pending ++
              [{ ip := ip, count := (w.limiter.ipCountMap ip).getD 0,
                 delay := w.limiter.options.interval }] },
          .next) := by
  simp [RateLimiterMiddleware.handle, hb, hwl, hge]

theorem fire_pending (w : Runtime) (i : Nat) (t : Timer) (h : w.pending[i]? = some t) :
    w.fire i = { limiter := t.run w.limiter, pending := w.pending.eraseIdx i } := by
  simp [Runtime.fire, h]

theorem fire_sets_count (w : Runtime) (i : Nat) (t : Timer) (h : w.pending[i]? = some t) :
    (w.fire i).limiter.ipCountMap t.ip = some t.count := by
  rw [fire_pending w i t h]
  simp [Timer.run, mapSet]

/-- Claim C5. (1) A `handle` call for an identity that is neither blocked nor whitelisted and
whose observed count `c` is below `maxRequests` calls `next()`, sets the count to `c + 1` and
schedules exactly one callback, after `options.interval`, that captures `ip` and `c`.
(2) Whenever a pending callback fires, it sets the count of its identity to exactly the
captured value, whatever the current count is, and leaves the queue. (3) When two callbacks
for the same identity are pending and both fire with nothing in between, the count afterwards
is the captured value of the one that fired last, in either order. -/
theorem decay_is_absolute_write :
    (∀ (w : Runtime) (ip : Ip) (c : Nat),
        w.limiter.ipBlockList ip = false →
        w.limiter.options.whitelisted ip = false →
        (w.limiter.ipCountMap ip).getD 0 = c →
        JSNum.natLt c w.limiter.options.maxRequests = true →
        (RateLimiterMiddleware.handle w (.obj ip)).2 = .next ∧
        (RateLimiterMiddleware.handle w (.obj ip)).1.limiter.ipCountMap ip = some (c + 1) ∧
        (RateLimiterMiddleware.handle w (.obj ip)).1.pending
          = w.pending ++ [{ ip := ip, count := c, delay := w.limiter.options.interval }]) ∧
    (∀ (w : Runtime) (i : Nat) (t : Timer),
        w.pending[i]? = some t →
        (w.fire i).limiter.ipCountMap t.ip = some t.count ∧
        (w.fire i).pending = w.pending.eraseIdx i) ∧
    (∀ (w : Runtime) (i j : Nat) (t u : Timer),
        i < j → w.pending[i]? = some t → w.pending[j]? = some u → t.ip = u.ip →
        ((w.fire i).fire (j - 1)).limiter.ipCountMap t.ip = some u.count ∧
        ((w.fire j).fire i).limiter.ipCountMap t.ip = some t.count) := by
  refine ⟨?_, ?_, ?_⟩
  · intro w ip c hb hwl hc hlt
    subst hc
    rw [handle_admitted w ip hb hwl (natGe_of_natLt _ _ hlt)]
    simp [mapSet]
  · intro w i t h
    refine ⟨fire_sets_count w i t h, ?_⟩
    rw [fire_pending w i t h]
  · intro w i j t u hij hi hj hip
    constructor
    · have h1 : (w.fire i).pending[j - 1]? = some u := by
        rw [fire_pending w i t hi]
        show (w.pending.eraseIdx i)[j - 1]? = some u
        rw [List.getElem?_eraseIdx_of_ge _ _ _ (by omega)]
        have : j - 1 + 1 = j := by omega
        rw [this]; exact hj
      rw [hip]
      exact fire_sets_count _ _ u h1
    · have h1 : (w.fire j).pending[i]? = some t := by
        rw [fire_pending w j u hj]
        show (w.pending.eraseIdx j)[i]? = some t
        rw [List.getElem?_eraseIdx_of_lt _ _ _ hij]
        exact hi
      exact fire_sets_count _ _ t h1

theorem pending_history (w0 : Runtime) (h0 : w0.pending = []) (evs : List Event) :
    ∀ t ∈ (w0.exec evs).pending, ∃ pre post : List Event,
      evs = pre ++ Event.handle (.obj t.ip) :: post ∧
      (RateLimiterMiddleware.handle (w0.exec pre) (.obj t.ip)).2 = .next ∧
      ((w0.exec pre).limiter.ipCountMap t.ip).getD 0 = t.count ∧
      (RateLimiterMiddleware.handle (w0.exec pre) (.obj t.ip)).1.limiter.ipCountMap t.ip
        = some (t.count + 1) ∧
      (RateLimiterMiddleware.handle (w0.exec pre) (.obj t.ip)).1.pending
        = (w0.exec pre).pending ++ [t] := by
  induction evs using List.reverseRecOn with
  | nil =>
    intro t ht
    have ht1 : t ∈ w0.pending := ht
    rw [h0] at ht1
    cases ht1
  | append_singleton es e ih =>
    have keep : ∀ t ∈ (w0.exec es).pending, ∃ pre post : List Event,
        es ++ [e] = pre ++ Event.handle (.obj t.ip) :: post ∧
        (RateLimiterMiddleware.handle (w0.exec pre) (.obj t.ip)).2 = .next ∧
        ((w0.exec pre).limiter.ipCountMap t.ip).getD 0 = t.count ∧
        (RateLimiterMiddleware.handle (w0.exec pre) (.obj t.ip)).1.limiter.ipCountMap t.ip
          = some (t.count + 1) ∧
        (RateLimiterMiddleware.handle (w0.exec pre) (.obj t.ip)).1.pending
          = (w0.exec pre).pending ++ [t] := by
      intro t ht
      obtain ⟨pre, post, he, h1, h2, h3, h4⟩ := ih t ht
      refine ⟨pre, post ++ [e], ?_, h1, h2, h3, h4⟩
      rw [he]; simp
    intro t ht
    rw [exec_append] at ht
    have ht0 : t ∈ ((w0.exec es).step e).pending := ht
    cases e with
    | fire i =>
      apply keep t
      have ht1 : t ∈ ((w0.exec es).fire i).pending := ht0
      unfold Runtime.fire at ht1
      cases hi : (w0.exec es).pending[i]? with
      | none => rw [hi] at ht1; exact ht1
      | some u => rw [hi] at ht1; exact List.mem_of_mem_eraseIdx ht1
    | handle req =>
      have ht1 : t ∈ (RateLimiterMiddleware.handle (w0.exec es) req).1.pending := ht0
      cases req with
      | nullish => exact keep t ht1
      | obj a =>
        by_cases hb : (w0.exec es).limiter.ipBlockList a = true
        · rw [handle_blocked _ a hb] at ht1
          exact keep t ht1
        · have hb1 : (w0.exec es).limiter.ipBlockList a = false := by simpa using hb
          by_cases hwl : (w0.exec es).limiter.options.whitelisted a = true
          · rw [handle_whitelisted _ a hb1 hwl] at ht1
            exact keep t ht1
          · have hwl1 : (w0.exec es).limiter.options.whitelisted a = false := by
              simpa using hwl
            by_cases hge : JSNum.natGe (((w0.exec es).limiter.ipCountMap a).getD 0)
                (w0.exec es).limiter.options.maxRequests = true
            · have : (RateLimiterMiddleware.handle (w0.exec es) (.obj a)).1.pending
                  = (w0.exec es).pending := by
                simp [RateLimiterMiddleware.handle, hb1, hwl1, hge]
              rw [this] at ht1
              exact keep t ht1
            · have hge1 : JSNum.natGe (((w0.exec es).limiter.ipCountMap a).getD 0)
                  (w0.exec es).limiter.options.maxRequests = false := by simpa using hge
              have hadm := handle_admitted (w0.exec es) a hb1 hwl1 hge1
              rw [hadm] at ht1
              rcases List.mem_append.1 ht1 with h | h
              · exact keep t h
              · rw [List.mem_singleton] at h
                subst h
                refine ⟨es, [], rfl, ?_, rfl, ?_, ?_⟩
                · show (RateLimiterMiddleware.handle (w0.exec es) (.obj a)).2 = .next
                  rw [hadm]
                · show (RateLimiterMiddleware.handle (w0.exec es)
                    (.obj a)).1.limiter.ipCountMap a = _
                  rw [hadm]
                  simp [mapSet]
                · show (RateLimiterMiddleware.handle (w0.exec es) (.obj a)).1.pending = _
                  rw [hadm]

/-- Claim C8. Start from any runtime `w0` with no pending callback (no `handle` call has
been made yet) and run any sequence `evs` of `handle`
calls and callback firings. Every callback `t` that is then pending was scheduled by a
`handle` call of `evs` for `t.ip`: that call was admitted, observed the count `t.count` and
raised it to `raised = t.count + 1`; and the count `left` that firing `t` leaves for its
identity is not greater than `raised`. -/
theorem decay_never_raises (w0 : Runtime) (evs : List Event) (i : Nat) (t : Timer)
    (h0 : w0.pending = []) (hi : (w0.exec evs).pending[i]? = some t) :
    ∃ (pre post : List Event) (raised left : Nat),
      evs = pre ++ Event.handle (.obj t.ip) :: post ∧
      (RateLimiterMiddleware.handle (w0.exec pre) (.obj t.ip)).2 = .next ∧
      ((w0.exec pre).limiter.ipCountMap t.ip).getD 0 = t.count ∧
      (RateLimiterMiddleware.handle (w0.exec pre) (.obj t.ip)).1.pending
        = (w0.exec pre).pending ++ [t] ∧
      (RateLimiterMiddleware.handle (w0.exec pre) (.obj t.ip)).1.limiter.ipCountMap t.ip
        = some raised ∧
      raised = t.count + 1 ∧
      ((w0.exec evs).fire i).limiter.ipCountMap t.ip = some left ∧
      left ≤ raised := by
  obtain ⟨pre, post, he, hnext, hobs, hraise, hpend⟩ :=
    pending_history w0 h0 evs t (List.getElem?_mem hi)
  exact ⟨pre, post, t.count + 1, t.count, he, hnext, hobs, hpend, hraise, rfl,
    fire_sets_count _ i t hi, Nat.le_succ _⟩

/-! ## A burst followed by its decays -/

theorem natGe_of_natLe_add (c j k : Nat) (m : JSNum) (hj : j < k)
    (h : JSNum.natLe (c + k) m = true) : JSNum.natGe (c + j) m = false := by
  cases m with
  | nan => rfl
  | negInf => simp [JSNum.natLe] at h
  | posInf => rfl
  | fin q =>
    simp only [JSNum.natLe, decide_eq_true_eq] at h
    simp only [JSNum.natGe, decide_eq_false_iff_not, not_le]
    have h1 : ((c + j : ℕ) : ℚ) < ((c + k : ℕ) : ℚ) := by
      exact_mod_cast Nat.add_lt_add_left hj c
    exact lt_of_lt_of_le h1 h

theorem burst_state (ip : Ip) (c : Nat) (w : Runtime) (k : Nat)
    (hb : w.limiter.ipBlockList ip = false)
    (hwl : w.limiter.options.whitelisted ip = false)
    (hc : (w.limiter.ipCountMap ip).getD 0 = c)
    (hge : ∀ j < k, JSNum.natGe (c + j) w.limiter.options.maxRequests = false) :
    (w.exec (List.replicate k (.handle (.obj ip)))).limiter.ipBlockList ip = false ∧
      ((w.exec (List.replicate k (.handle (.obj ip)))).limiter.ipCountMap ip).getD 0 = c + k ∧
      (w.exec (List.replicate k (.handle (.obj ip)))).pending
        = w.pending ++ (List.range k).map
            (fun j => { ip := ip, count := c + j, delay := w.limiter.options.interval }) := by
  induction k with
  | zero => simpa [Runtime.exec] using ⟨hb, hc⟩
  | succ k ih =>
    obtain ⟨hb1, hc1, hp1⟩ := ih (fun j hj => hge j (Nat.lt_succ_of_lt hj))
    rw [List.replicate_succ', exec_append]
    have hopt := exec_options (List.replicate k (.handle (.obj ip))) w
    generalize w.exec (List.replicate k (.handle (.obj ip))) = v at hb1 hc1 hp1 hopt
    have hwl1 : v.limiter.options.whitelisted ip = false := by rw [hopt]; exact hwl
    have hge1 : JSNum.natGe ((v.limiter.ipCountMap ip).getD 0) v.limiter.options.maxRequests
        = false := by
      rw [hc1, hopt]; exact hge k (Nat.lt_succ_self k)
    show (RateLimiterMiddleware.handle v (.obj ip)).1.limiter.ipBlockList ip = false ∧
      ((RateLimiterMiddleware.handle v (.obj ip)).1.limiter.ipCountMap ip).getD 0 = c + (k + 1) ∧
      (RateLimiterMiddleware.handle v (.obj ip)).1.pending = _
    rw [handle_admitted v ip hb1 hwl1 hge1]
    refine ⟨hb1, ?_, ?_⟩
    · simp [mapSet, hc1]; omega
    · simp [hp1, hc1, hopt, List.range_succ]

theorem fire_front (pre rest : List Timer) (t : Timer) (v : Runtime)
    (hp : v.pending = pre ++ t :: rest) :
    (v.fire pre.length).pending = pre ++ rest ∧
      (v.fire pre.length).limiter.ipCountMap t.ip = some t.count ∧
      (v.fire pre.length).limiter.ipBlockList = v.limiter.ipBlockList ∧
      (v.fire pre.length).limiter.options = v.limiter.options := by
  have hi : v.pending[pre.length]? = some t := by
    rw [hp, List.getElem?_append_right (Nat.le_refl _)]
    simp
  refine ⟨?_, fire_sets_count v _ t hi, fire_blockList v _, fire_options v _⟩
  rw [fire_pending v _ t hi]
  show v.pending.eraseIdx pre.length = pre ++ rest
  rw [hp, List.eraseIdx_append_of_length_le (Nat.le_refl _)]
  simp

theorem fire_all_in_order (ts : List Timer) (tl : Timer) (pre : List Timer) (v : Runtime)
    (hp : v.pending = pre ++ (ts ++ [tl])) :
    (v.exec (List.replicate (ts.length + 1) (.fire pre.length))).pending = pre ∧
      (v.exec (List.replicate (ts.length + 1) (.fire pre.length))).limiter.ipCountMap tl.ip
        = some tl.count ∧
      (v.exec (List.replicate (ts.length + 1) (.fire pre.length))).limiter.ipBlockList
        = v.limiter.ipBlockList ∧
      (v.exec (List.replicate (ts.length + 1) (.fire pre.length))).limiter.options
        = v.limiter.options := by
  induction ts generalizing v with
  | nil =>
    obtain ⟨h1, h2, h3, h4⟩ := fire_front pre [] tl v (by simpa using hp)
    refine ⟨?_, h2, h3, h4⟩
    simpa using h1
  | cons t ts ih =>
    obtain ⟨h1, _, h3, h4⟩ := fire_front pre (ts ++ [tl]) t v (by simpa using hp)
    obtain ⟨g1, g2, g3, g4⟩ := ih (v.fire pre.length) h1
    have hexec : v.exec (List.replicate ((t :: ts).length + 1) (.fire pre.length))
        = (v.fire pre.length).exec (List.replicate (ts.length + 1) (.fire pre.length)) := rfl
    rw [hexec]
    exact ⟨g1, g2, g3.trans h3, g4.trans h4⟩

/-- Claim C10. Let `ip` be neither blocked nor whitelisted, with count `c`, and let `k ≥ 1`
with `c + k <= maxRequests`. Then `k` consecutive `handle` calls for `ip` are all admitted and
schedule `k` callbacks capturing `c, c + 1, ..., c + k - 1`; after these `k` callbacks have
fired in the order in which they were scheduled, the count of `ip` is `c + k - 1`, the queue is
as it was before the burst, and the next `handle` call for `ip` is admitted again. For `k = 1`
the count is back at `c`; for `k ≥ 2` it stays `k - 1` above `c`. -/
theorem burst_then_decay (w : Runtime) (ip : Ip) (c k : Nat)
    (hb : w.limiter.ipBlockList ip = false)
    (hwl : w.limiter.options.whitelisted ip = false)
    (hc : (w.limiter.ipCountMap ip).getD 0 = c)
    (hk : 1 ≤ k)
    (hle : JSNum.natLe (c + k) w.limiter.options.maxRequests = true) :
    (∀ j < k, (RateLimiterMiddleware.handle
        (w.exec (List.replicate j (.handle (.obj ip)))) (.obj ip)).2 = .next) ∧
      (w.exec (List.replicate k (.handle (.obj ip)))).pending
        = w.pending ++ (List.range k).map
            (fun j => { ip := ip, count := c + j, delay := w.limiter.options.interval }) ∧
      (((w.exec (List.replicate k (.handle (.obj ip)))).exec
          (List.replicate k (.fire w.pending.length))).limiter.ipCountMap ip).getD 0
        = c + k - 1 ∧
      ((w.exec (List.replicate k (.handle (.obj ip)))).exec
          (List.replicate k (.fire w.pending.length))).pending = w.pending ∧
      (RateLimiterMiddleware.handle
        ((w.exec (List.replicate k (.handle (.obj ip)))).exec
          (List.replicate k (.fire w.pending.length))) (.obj ip)).2 = .next := by
  have hge : ∀ j < k, JSNum.natGe (c + j) w.limiter.options.maxRequests = false :=
    fun j hj => natGe_of_natLe_add c j k _ hj hle
  obtain ⟨hb1, _, hp1⟩ := burst_state ip c w k hb hwl hc hge
  refine ⟨?_, hp1, ?_⟩
  · intro j hj
    obtain ⟨hbj, hcj, _⟩ := burst_state ip c w j hb hwl hc
      (fun i hi => hge i (Nat.lt_trans hi hj))
    have hopt : (w.exec (List.replicate j (.handle (.obj ip)))).limiter.options
        = w.limiter.options := exec_options _ _
    rw [handle_admitted _ ip hbj (by rw [hopt]; exact hwl) (by rw [hcj, hopt]; exact hge j hj)]
  · obtain ⟨m, rfl⟩ : ∃ m, k = m + 1 := ⟨k - 1, by omega⟩
    have hopt := exec_options (List.replicate (m + 1) (.handle (.obj ip))) w
    generalize w.exec (List.replicate (m + 1) (.handle (.obj ip))) = v at hb1 hp1 hopt
    rw [List.range_succ, List.map_append] at hp1
    have hlen : ((List.range m).map (fun j =>
        ({ ip := ip, count := c + j, delay := w.limiter.options.interval } : Timer))).length
        = m := by simp
    obtain ⟨g1, g2, g3, g4⟩ := fire_all_in_order _ _ w.pending v hp1
    rw [hlen] at g1 g2 g3 g4
    have g2a : ((v.exec (List.replicate (m + 1) (.fire w.pending.length))).limiter.ipCountMap
        ip) = some (c + m) := g2
    refine ⟨by rw [g2a]; rfl, g1, ?_⟩
    have hbl : (v.exec (List.replicate (m + 1) (.fire w.pending.length))).limiter.ipBlockList
        ip = false := by rw [g3]; exact hb1
    rw [handle_admitted _ ip hbl (by rw [g4, hopt]; exact hwl)
      (by rw [g2a, g4, hopt]; exact hge m (Nat.lt_succ_self m))]

/-! ## The constructor -/

theorem guard_object (v : JSVal) : (!v.truthy || v.typeof != "object") = !v.isObject := by
  cases v <;> simp [JSVal.truthy, JSVal.typeof, JSVal.isObject]

theorem guard_number (v : JSVal) (h : v.isPositiveNumber = true) :
    (v.typeof != "number" || v.leZero) = false := by
  cases v with
  | number x =>
    cases x with
    | nan => simp [JSVal.isPositiveNumber, JSNum.gtZero] at h
    | negInf => simp [JSVal.isPositiveNumber, JSNum.gtZero] at h
    | posInf => rfl
    | fin q =>
      have hq : 0 < q := by simpa [JSVal.isPositiveNumber, JSNum.gtZero] using h
      simp [JSVal.typeof, JSVal.leZero, JSNum.leZero, hq]
  | _ => simp [JSVal.isPositiveNumber] at h

theorem guard_whitelist (v : JSVal)
    (h : (decide (v ≠ .undefined) && !v.isArray) = false) :
    (v.truthy && !v.isArray) = false := by
  cases v <;> simp_all [JSVal.truthy, JSVal.isArray]

/-- The constructor returns no instance, whatever the options. -/
theorem constructor_never_returns (options : JSVal) (l : RateLimiterMiddleware) :
    RateLimiterMiddleware.new options ≠ .ok l := by
  unfold RateLimiterMiddleware.new
  split_ifs <;> simp [importedMap]

/-- Claim C4 fails on the code. For every options value that the claim requires to be
accepted (an object whose `maxRequests` and `interval` are numbers greater than 0 and whose
`whitelist` is `undefined` or an array) the four guards pass, and construction then throws the
`TypeError` of `new Map()` on line 32 instead of returning a limiter with two empty
collections. -/
theorem constructor_throws_on_valid_options (options : JSVal)
    (h : specRejects options = false) :
    RateLimiterMiddleware.new options = .error .typeError := by
  simp only [specRejects, Bool.or_eq_false_iff, Bool.not_eq_false'] at h
  obtain ⟨⟨⟨ho, hm⟩, hi⟩, hw⟩ := h
  unfold RateLimiterMiddleware.new
  rw [guard_object, guard_number _ hm, guard_number _ hi, guard_whitelist _ hw, ho]
  rfl

/-- Witness of `constructor_throws_on_valid_options` at `{ maxRequests: 3, interval: 1000 }`. -/
theorem constructor_throws_on_valid_options_witness :
    specRejects options3 = false ∧
      RateLimiterMiddleware.new options3 = .error .typeError :=
  ⟨by decide, constructor_throws_on_valid_options options3 (by decide)⟩

/-! ## Further facts about blocked identities and about requests without an address -/

/-- Once `ip` is in `ipBlockList`: no `handle` call, for `ip` or for any other identity,
changes the count of `ip`, and no callback of another identity does; a pending callback for
`ip` overwrites the count of `ip` with its captured value when it fires, while `ip` stays
blocked and `handle` for `ip` still sends status 403. -/
theorem blocked_count_frame (w : Runtime) (ip : Ip) (hb : w.limiter.ipBlockList ip = true) :
    (∀ req, (RateLimiterMiddleware.handle w req).1.limiter.ipCountMap ip
        = w.limiter.ipCountMap ip) ∧
      (∀ i t, w.pending[i]? = some t → t.ip ≠ ip →
        (w.fire i).limiter.ipCountMap ip = w.limiter.ipCountMap ip) ∧
      (∀ i t, w.pending[i]? = some t → t.ip = ip →
        (w.fire i).limiter.ipCountMap ip = some t.count ∧
        (w.fire i).limiter.ipBlockList ip = true ∧
        RateLimiterMiddleware.handle (w.fire i) (.obj ip)
          = (w.fire i, .send 403 "IP blocked")) := by
  refine ⟨?_, ?_, ?_⟩
  · intro req
    cases req with
    | nullish => rfl
    | obj a =>
      by_cases ha : ip = a
      · subst ha
        rw [handle_blocked w ip hb]
      · exact handle_other_count w a ip ha
  · intro i t hi hne
    rw [fire_pending w i t hi]
    have : ip ≠ t.ip := fun h => hne h.symm
    simp [Timer.run, mapSet, this]
  · intro i t hi he
    have hb1 : (w.fire i).limiter.ipBlockList ip = true := by
      rw [fire_blockList]; exact hb
    refine ⟨?_, hb1, handle_blocked _ ip hb1⟩
    rw [← he]
    exact fire_sets_count w i t hi

/-- The body of `handle` has no test on the value of `req.ip`: in every state, a request
object is answered by `next()` or by a response, whatever its `ip`, also `undefined`; only a
request on which reading `ip` throws reaches `next(err)`, and then nothing changes. -/
theorem handle_error_path (w : Runtime) :
    (∀ ip, (RateLimiterMiddleware.handle w (.obj ip)).2 ≠ .nextErr) ∧
      RateLimiterMiddleware.handle w .nullish = (w, .nextErr) := by
  refine ⟨fun ip => ?_, rfl⟩
  unfold RateLimiterMiddleware.handle
  dsimp only
  split_ifs <;> simp

/-! ## The theorems at concrete inputs -/

/-- Witness of `limit_then_block`: with `maxRequests = 3`, after three calls for `"A"` (and
one for `"B"` in between) the fourth call for `"A"` is answered with status 429. -/
theorem limit_then_block_witness :
    (Runtime.start limiter3).limiter.options.maxRequests = .fin ((3 : ℕ) : ℚ) ∧
      (Runtime.start limiter3).limiter.options.whitelisted ipA = false ∧
      (Runtime.start limiter3).limiter.ipBlockList ipA = false ∧
      (Runtime.start limiter3).limiter.ipCountMap ipA = none ∧
      (RateLimiterMiddleware.handle ((Runtime.start limiter3).exec
        ([Req.obj ipA, Req.obj ipB, Req.obj ipA, Req.obj ipA].map Event.handle))
        (.obj ipA)).2 = .send 429 "Too many requests" :=
  ⟨rfl, rfl, rfl, rfl,
    ((limit_then_block (Runtime.start limiter3) 3 ipA
      [Req.obj ipA, Req.obj ipB, Req.obj ipA, Req.obj ipA] rfl (by decide) rfl rfl
      rfl).2.1 (by decide)).1⟩

/-- Witness of `blocked_is_permanent`: `"A"` is blocked after two calls under
`maxRequests = 1` and stays blocked after its callback has fired and `"B"` has called. -/
theorem blocked_is_permanent_witness :
    ((Runtime.start limiter1).exec
        [.handle (.obj ipA), .handle (.obj ipA)]).limiter.ipBlockList ipA = true ∧
      (((Runtime.start limiter1).exec [.handle (.obj ipA), .handle (.obj ipA)]).exec
        [.fire 0, .handle (.obj ipB)]).limiter.ipBlockList ipA = true :=
  ⟨by decide,
    (blocked_is_permanent ((Runtime.start limiter1).exec
      [.handle (.obj ipA), .handle (.obj ipA)]) ipA [.fire 0, .handle (.obj ipB)]
      (by decide)).1⟩

/-- Witness of `whitelisted_always_passes`: with `whitelist: ["B"]`, the identity `"B"` is
not blocked after calls for `"B"` and `"A"` and a firing. -/
theorem whitelisted_always_passes_witness :
    (Runtime.start limiterExempt).limiter.options.whitelist = some [ipB] ∧ ipB ∈ [ipB] ∧
      (Runtime.start limiterExempt).limiter.ipBlockList ipB = false ∧
      ((Runtime.start limiterExempt).exec
        [.handle (.obj ipB), .handle (.obj ipB), .handle (.obj ipA), .fire 0]
        ).limiter.ipBlockList ipB = false :=
  ⟨rfl, List.mem_singleton.2 rfl, rfl,
    (whitelisted_always_passes (Runtime.start limiterExempt) [ipB] ipB
      [.handle (.obj ipB), .handle (.obj ipB), .handle (.obj ipA), .fire 0]
      rfl (List.mem_singleton.2 rfl) rfl).1⟩

/-- Witness of `decay_is_absolute_write`: the first call for `"A"` on a fresh limiter with
`maxRequests = 3` is admitted and raises the count from 0 to 1. -/
theorem decay_is_absolute_write_witness :
    (Runtime.start limiter3).limiter.ipBlockList ipA = false ∧
      JSNum.natLt 0 (Runtime.start limiter3).limiter.options.maxRequests = true ∧
      (RateLimiterMiddleware.handle (Runtime.start limiter3) (.obj ipA)).1.limiter.ipCountMap
        ipA = some (0 + 1) :=
  ⟨rfl, by decide,
    (decay_is_absolute_write.1 (Runtime.start limiter3) ipA 0 rfl rfl rfl (by decide)).2.1⟩

/-- Witness of `count_within_bounds`: with `maxRequests = 3`, the count 2 stored for `"A"`
after two calls is within the bounds. -/
theorem count_within_bounds_witness :
    (Runtime.start limiter3).limiter.options.maxRequests = .fin ((3 : ℕ) : ℚ) ∧
      (∀ a b, (Runtime.start limiter3).limiter.ipCountMap a = some b → b ≤ 3 + 1) ∧
      (∀ t ∈ (Runtime.start limiter3).pending, t.count ≤ 3 + 1) ∧
      ((Runtime.start limiter3).exec
        [.handle (.obj ipA), .handle (.obj ipA)]).limiter.ipCountMap ipA = some 2 ∧
      0 ≤ 2 ∧ 2 ≤ 3 + 1 :=
  ⟨rfl, (by intro a b h; cases h), (by intro t h; cases h), (by decide),
    count_within_bounds (Runtime.start limiter3) 3 [.handle (.obj ipA), .handle (.obj ipA)]
      ipA 2 rfl (by decide) (by intro a b h; cases h) (by intro t h; cases h) (by decide)⟩

/-- Witness of `decay_never_raises`: the callback pending after the first call for `"A"`
under `maxRequests = 1`. -/
theorem decay_never_raises_witness :
    (Runtime.start limiter1).pending = [] ∧
      ((Runtime.start limiter1).exec [.handle (.obj ipA)]).pending[0]?
        = some { ip := ipA, count := 0, delay := .fin 50 } ∧
      ∃ (pre post : List Event) (raised left : Nat),
        [Event.handle (.obj ipA)] = pre ++ Event.handle (.obj ipA) :: post ∧
        (RateLimiterMiddleware.handle ((Runtime.start limiter1).exec pre) (.obj ipA)).2
          = .next ∧
        (((Runtime.start limiter1).exec pre).limiter.ipCountMap ipA).getD 0 = 0 ∧
        (RateLimiterMiddleware.handle ((Runtime.start limiter1).exec pre) (.obj ipA)).1.pending
          = ((Runtime.start limiter1).exec pre).pending
            ++ [{ ip := ipA, count := 0, delay := .fin 50 }] ∧
        (RateLimiterMiddleware.handle ((Runtime.start limiter1).exec pre)
          (.obj ipA)).1.limiter.ipCountMap ipA = some raised ∧
        raised = 0 + 1 ∧
        (((Runtime.start limiter1).exec [.handle (.obj ipA)]).fire 0).limiter.ipCountMap ipA
          = some left ∧
        left ≤ raised :=
  ⟨rfl, by decide,
    decay_never_raises (Runtime.start limiter1) [.handle (.obj ipA)] 0
      { ip := ipA, count := 0, delay := .fin 50 } rfl (by decide)⟩

/-- Witness of `burst_then_decay`: with `maxRequests = 3`, a burst of two calls for `"A"` on a
fresh limiter followed by both decays leaves the count at 1. -/
theorem burst_then_decay_witness :
    (Runtime.start limiter3).limiter.ipBlockList ipA = false ∧
      JSNum.natLe (0 + 2) (Runtime.start limiter3).limiter.options.maxRequests = true ∧
      ((((Runtime.start limiter3).exec (List.replicate 2 (.handle (.obj ipA)))).exec
          (List.replicate 2 (.fire (Runtime.start limiter3).pending.length))).limiter.ipCountMap
        ipA).getD 0 = 0 + 2 - 1 :=
  ⟨rfl, by decide,
    (burst_then_decay (Runtime.start limiter3) ipA 0 2 rfl rfl rfl (by decide)
      (by decide)).2.2.1⟩

end AccessFlow
